import Mathlib

set_option autoImplicit false

deriving instance DecidableEq for Except

namespace Tabdil

/-- Modelled from the spec: the module named constants (imported by core/models.py and
api/views.py for the transaction state labels) is not present under src; the spec
fixes the state set as PENDING, APPROVED, REJECTED. -/
inductive TxState where
  | PENDING
  | APPROVED
  | REJECTED
deriving DecidableEq

/-- Vendor account row (core/models.py, class Vendor): balance and total_sell are
PositiveIntegerField columns; we embed them as Int and prove non-negativity as an
invariant. -/
structure Vendor where
  balance : Int
  total_sell : Int
deriving DecidableEq

/-- PhoneNumber account row (core/models.py, class PhoneNumber): owning vendor id
and balance. -/
structure PhoneNumber where
  vendorId : Nat
  balance : Int
deriving DecidableEq

/-- VendorTransaction row (core/models.py, class VendorTransaction): deposit request
with owning vendor, amount, state and reject_reason. -/
structure VendorTransaction where
  vendorId : Nat
  amount : Int
  state : TxState
  reject_reason : String
deriving DecidableEq

/-- PhoneNumberTransaction row (core/models.py, class PhoneNumberTransaction):
transfer ledger entry referencing source vendor, destination phone and amount. -/
structure PhoneNumberTransaction where
  vendorId : Nat
  phoneId : Nat
  amount : Int
  state : TxState
deriving DecidableEq

/-- Association-list lookup (first occurrence wins), standing for a primary-key
row fetch such as Model.objects.get(pk=k). -/
def lookupA {κ α : Type} [DecidableEq κ] (k : κ) : List (κ × α) → Option α
  | [] => none
  | (k', v) :: rest => if k' = k then some v else lookupA k rest

/-- Association-list update of the first entry with key k, standing for an UPDATE
of the fetched row. -/
def updateA {κ α : Type} [DecidableEq κ] (k : κ) (f : α → α) :
    List (κ × α) → List (κ × α)
  | [] => []
  | (k', v) :: rest =>
      if k' = k then (k', f v) :: rest else (k', v) :: updateA k f rest

/-- The durable relational state: the four tables plus the id sequence for
VendorTransaction rows. -/
structure LedgerState where
  vendors : List (Nat × Vendor)
  phones : List (Nat × PhoneNumber)
  vtxs : List (Nat × VendorTransaction)
  ptxs : List PhoneNumberTransaction
  nextVtxId : Nat
deriving DecidableEq

/-- The error outcomes of the ledger operations: InvalidAmount, NotPending, NotOwned
and InsufficientBalance are the spec taxonomy; NotFound stands for a missing-row
lookup (DoesNotExist / invalid pk). -/
inductive LedgerError where
  | InvalidAmount
  | NotPending
  | NotOwned
  | InsufficientBalance
  | NotFound
deriving DecidableEq

/-- createDeposit, from VendorTransactionSerializer.validate_amount
(api/serializers.py lines 87-90: amount <= 0 is rejected) and
VendorTransactionViewSet.perform_create (api/views.py lines 133-136: the vendor is
resolved and the row is saved with state=PENDING). Returns the new state and the
new row id. -/
def createDeposit (s : LedgerState) (vendorId : Nat) (amount : Int) :
    Except LedgerError (LedgerState × Nat) :=
  if amount ≤ 0 then .error .InvalidAmount
  else
    match lookupA vendorId s.vendors with
    | none => .error .NotFound
    | some _ =>
        .ok ({ s with
                vtxs := s.vtxs ++
                  [(s.nextVtxId,
                    { vendorId := vendorId, amount := amount,
                      state := .PENDING, reject_reason := "" })],
                nextVtxId := s.nextVtxId + 1 },
             s.nextVtxId)

/-- The data returned by change_state: the committed ledger, the updated
transaction row and the (refreshed) vendor row, mirroring the response body built
at api/views.py lines 164-165. -/
structure ChangeStateResult where
  ledger : LedgerState
  tx : VendorTransaction
  vendor : Vendor
deriving DecidableEq

/-- changeState, from VendorTransactionViewSet.change_state (api/views.py lines
139-163): fetch the transaction under lock (404 when missing), fail when its state
is not PENDING, default an omitted requested state to the current state and an
omitted reject_reason to the empty string (VendorTransactionUpdateSerializer with
partial=True, line 155 and line 158), write state and reject_reason, and when the
new state is APPROVED add the amount to the owning vendor balance in the same
atomic unit, returning the refreshed vendor. -/
def changeState (s : LedgerState) (txId : Nat) (newState : Option TxState)
    (rejectReason : Option String) : Except LedgerError ChangeStateResult :=
  match lookupA txId s.vtxs with
  | none => .error .NotFound
  | some tx =>
      if tx.state ≠ .PENDING then .error .NotPending
      else
        let new_state := newState.getD tx.state
        match lookupA tx.vendorId s.vendors with
        | none => .error .NotFound
        | some vendor =>
            let tx' : VendorTransaction :=
              { tx with state := new_state,
                        reject_reason := rejectReason.getD "" }
            let s1 : LedgerState := { s with vtxs := updateA txId (fun _ => tx') s.vtxs }
            if new_state = .APPROVED then
              let vendor' : Vendor := { vendor with balance := vendor.balance + tx.amount }
              .ok { ledger := { s1 with vendors := updateA tx.vendorId (fun _ => vendor') s1.vendors },
                    tx := tx', vendor := vendor' }
            else
              .ok { ledger := s1, tx := tx', vendor := vendor }

/-- transfer, from PhoneNumberTransactionSerializer.validate (api/serializers.py
lines 116-132) followed by PhoneNumberTransactionViewSet.perform_create
(api/views.py lines 199-223). Validation order as in the source: the phone row must
exist (PrimaryKeyRelatedField), then ownership — a missing vendor row or a phone
owned by another vendor fails with NotOwned (line 121 compares phone.vendor against
the resolved vendor, which may be None) — then balance < amount fails with
InsufficientBalance (line 125), then amount <= 0 fails with InvalidAmount
(line 128). On success the vendor is debited and total_sell credited, the phone is
credited, and one APPROVED PhoneNumberTransaction row is appended, all in one
atomic unit. The amount <= 0 check here sits at its object-stage (validate)
position; negative amounts are in fact already rejected at DRF field validation
(the amount field is auto-built from PositiveIntegerField, hence min_value 0),
which is modelled in transferValidate below — the two models differ only for
amount < 0, where both fail and the committed state is unchanged either way. -/
def transfer (s : LedgerState) (vendorId : Nat) (phoneId : Nat) (amount : Int) :
    Except LedgerError (LedgerState × PhoneNumberTransaction) :=
  match lookupA phoneId s.phones with
  | none => .error .NotFound
  | some phone =>
      match lookupA vendorId s.vendors with
      | none => .error .NotOwned
      | some vendor =>
          if phone.vendorId ≠ vendorId then .error .NotOwned
          else if vendor.balance < amount then .error .InsufficientBalance
          else if amount ≤ 0 then .error .InvalidAmount
          else
            let s1 : LedgerState :=
              { s with
                vendors := updateA vendorId (fun v =>
                  { v with balance := v.balance - amount,
                           total_sell := v.total_sell + amount }) s.vendors,
                phones := updateA phoneId (fun p =>
                  { p with balance := p.balance + amount }) s.phones }
            let ptx : PhoneNumberTransaction :=
              { vendorId := vendorId, phoneId := phoneId,
                amount := amount, state := .APPROVED }
            .ok ({ s1 with ptxs := s1.ptxs ++ [ptx] }, ptx)

/-- The validation stage of the transfer endpoint, modelling both serializer
stages. Field stage (DRF to_internal_value, which runs before the object-level
validate): the amount field is auto-built from the model's PositiveIntegerField
(core/models.py line 73), so it carries min_value 0 and a negative amount is
rejected there (InvalidAmount) before any object-level check; the phone_number
PrimaryKeyRelatedField (api/serializers.py line 104) requires an existing row.
Field errors are collected together in one response; the model orders the amount
error first, matching the field order of Meta.fields (line 108). Object stage
(PhoneNumberTransactionSerializer.validate, api/serializers.py lines 116-132):
ownership (NotOwned, also when no vendor account resolves), then balance < amount
(InsufficientBalance), then amount <= 0 (InvalidAmount, reachable only at
amount = 0 since negatives never get this far). Returns the validation error,
none when validation passes. -/
def transferValidate (s : LedgerState) (vendorId : Nat) (phoneId : Nat)
    (amount : Int) : Option LedgerError :=
  if amount < 0 then some .InvalidAmount
  else
    match lookupA phoneId s.phones with
    | none => some .NotFound
    | some phone =>
        match lookupA vendorId s.vendors with
        | none => some .NotOwned
        | some vendor =>
            if phone.vendorId ≠ vendorId then some .NotOwned
            else if vendor.balance < amount then some .InsufficientBalance
            else if amount ≤ 0 then some .InvalidAmount
            else none

/-- An operation of the ledger core, for reasoning over committed operation
sequences: deposit creation, deposit state change, and vendor-to-phone transfer. -/
inductive Op where
  | deposit (vendorId : Nat) (amount : Int)
  | change (txId : Nat) (newState : Option TxState) (rejectReason : Option String)
  | xfer (vendorId : Nat) (phoneId : Nat) (amount : Int)

/-- The committed state after one operation: a failing operation aborts its atomic
unit and leaves the store unchanged. -/
def stepOp (s : LedgerState) : Op → LedgerState
  | .deposit vid a =>
      match createDeposit s vid a with
      | .ok (s', _) => s'
      | .error _ => s
  | .change txId ns rr =>
      match changeState s txId ns rr with
      | .ok r => r.ledger
      | .error _ => s
  | .xfer vid pid a =>
      match transfer s vid pid a with
      | .ok (s', _) => s'
      | .error _ => s

/-- The committed state after a sequence of operations. -/
def runOps (s : LedgerState) : List Op → LedgerState
  | [] => s
  | op :: rest => runOps (stepOp s op) rest

/-- Whether, from state s, the operation op is a changeState call on txId that
succeeds and leaves the transaction in a non-PENDING (terminal) state. -/
def settles (s : LedgerState) (txId : Nat) : Op → Bool
  | .change t ns rr =>
      t = txId &&
        (match changeState s t ns rr with
         | .ok r => decide (r.tx.state ≠ .PENDING)
         | .error _ => false)
  | _ => false

/-- How many operations of a sequence, run from s, are successful changeState
calls on txId that leave it in a terminal state. -/
def countSettles (s : LedgerState) (txId : Nat) : List Op → Nat
  | [] => 0
  | op :: rest =>
      (if settles s txId op then 1 else 0) + countSettles (stepOp s op) txId rest

/-- Classification of an exception raised by one of the three mutation steps of
perform_create (api/views.py lines 208-227): pgIntegrity is psycopg2.IntegrityError
(the class named in the first except clause at line 224); dbError is a database
error raised by Django itself (django.db.utils.IntegrityError and friends, which do
NOT subclass psycopg2.IntegrityError and so reach the generic handler at line 226,
but mark the atomic block needs_rollback); nonDbError is any other exception. -/
inductive ExcKind where
  | pgIntegrity
  | dbError
  | nonDbError
deriving DecidableEq

/-- What perform_create produces at the boundary of its atomic unit: created for
the normal path, badRequest for a raised ValidationError (the surrounding atomic
block rolls back), conflict for the generic handler at api/views.py lines 226-227
which catches the exception and returns a 409 Response instead of raising, so the
atomic block exits normally. (DRF discards the returned Response object; the kind
records which exit path ran.) -/
inductive RespKind where
  | created
  | badRequest (e : LedgerError)
  | conflict
deriving DecidableEq

/-- transfer with fault injection, from PhoneNumberTransactionViewSet.perform_create
(api/views.py lines 199-227) under the @transaction.atomic decorator. The mutation
steps inside the try block are step 0: vendor.save (debit and total_sell credit),
step 1: phone_number.save (credit), step 2: serializer.save (ledger row creation).
fault says which step, if any, raises and what kind of exception. Semantics of the
atomic unit: a raised exception (pgIntegrity, re-raised as ValidationError) rolls
the unit back; a caught database error (dbError) returns the 409 Response but the
connection is marked needs_rollback, so the unit still rolls back on exit; a caught
non-database exception (nonDbError) makes the block exit normally and the mutations
already applied commit. Returns the response kind and the committed state. The
precondition checks replicate the order of transfer above, so as there the
field-stage rejection of negative amounts lives in transferValidate; the fault
semantics concern only the success path, which both models share. -/
def transferF (s : LedgerState) (vendorId : Nat) (phoneId : Nat) (amount : Int)
    (fault : Option (Nat × ExcKind)) : RespKind × LedgerState :=
  match lookupA phoneId s.phones with
  | none => (.badRequest .NotFound, s)
  | some phone =>
      match lookupA vendorId s.vendors with
      | none => (.badRequest .NotOwned, s)
      | some vendor =>
          if phone.vendorId ≠ vendorId then (.badRequest .NotOwned, s)
          else if vendor.balance < amount then (.badRequest .InsufficientBalance, s)
          else if amount ≤ 0 then (.badRequest .InvalidAmount, s)
          else
            let afterDebit : LedgerState :=
              { s with vendors := updateA vendorId (fun v =>
                  { v with balance := v.balance - amount,
                           total_sell := v.total_sell + amount }) s.vendors }
            let afterCredit : LedgerState :=
              { afterDebit with phones := updateA phoneId (fun p =>
                  { p with balance := p.balance + amount }) afterDebit.phones }
            let afterCreate : LedgerState :=
              { afterCredit with ptxs := afterCredit.ptxs ++
                  [{ vendorId := vendorId, phoneId := phoneId,
                     amount := amount, state := .APPROVED }] }
            match fault with
            | none => (.created, afterCreate)
            | some (step, k) =>
                let reached : LedgerState :=
                  if step = 0 then s else if step = 1 then afterDebit else afterCredit
                match k with
                | .pgIntegrity => (.badRequest .InsufficientBalance, s)
                | .dbError => (.conflict, s)
                | .nonDbError => (.conflict, reached)

/-- Cache state for the cached read paths (core/cache.py, CacheMixin): the
per-object detail caches keyed by pk for vendors and vendor transactions, and the
list caches, modelled as the cached payloads. -/
structure CacheState where
  vendorDetail : List (Nat × Vendor)
  vendorList : Option (List (Nat × Vendor))
  vtxDetail : List (Nat × VendorTransaction)
  vtxList : Option (List (Nat × VendorTransaction))
  ptxList : Option (List PhoneNumberTransaction)
deriving DecidableEq

/-- Cached detail read of a vendor, from CacheMixin.retrieve (core/cache.py lines
58-67): serve the cached entry on a hit; on a miss read the store and, when the row
exists, fill the cache. -/
def retrieveVendor (c : CacheState) (s : LedgerState) (vid : Nat) :
    Option Vendor × CacheState :=
  match lookupA vid c.vendorDetail with
  | some v => (some v, c)
  | none =>
      match lookupA vid s.vendors with
      | none => (none, c)
      | some v => (some v, { c with vendorDetail := c.vendorDetail ++ [(vid, v)] })

/-- invalidate_related_caches applied to a Vendor instance (core/cache.py lines
148-158 with the key patterns of lines 172-182 for VendorViewSet): delete every
list-cache key and every detail-cache key of that pk. -/
def invalidateVendorCaches (c : CacheState) (vid : Nat) : CacheState :=
  { c with vendorList := none,
           vendorDetail := c.vendorDetail.filter (fun kv => kv.1 != vid) }

/-- invalidate_related_caches applied to a VendorTransaction instance
(core/cache.py lines 148-158 and 172-182 for VendorTransactionViewSet). -/
def invalidateVtxCaches (c : CacheState) (txId : Nat) : CacheState :=
  { c with vtxList := none,
           vtxDetail := c.vtxDetail.filter (fun kv => kv.1 != txId) }

/-- change_state with its cache effects (api/views.py lines 139-168): the atomic
unit commits first, then the vendor caches and the transaction caches are
invalidated; an error response invalidates nothing. -/
def changeStateView (c : CacheState) (s : LedgerState) (txId : Nat)
    (newState : Option TxState) (rejectReason : Option String) :
    Except LedgerError ChangeStateResult × CacheState :=
  match changeState s txId newState rejectReason with
  | .error e => (.error e, c)
  | .ok r => (.ok r, invalidateVtxCaches (invalidateVendorCaches c r.tx.vendorId) txId)

/-- The transfer endpoint with its cache effects: CacheMixin.create (core/cache.py
lines 69-74) runs the create and, on success, deletes only the list-cache key of
the current request path — for PhoneNumberTransactionViewSet that is the
phone-number-transaction list cache. No vendor or phone cache is touched. -/
def transferView (c : CacheState) (s : LedgerState) (vendorId : Nat) (phoneId : Nat)
    (amount : Int) :
    Except LedgerError (LedgerState × PhoneNumberTransaction) × CacheState :=
  match transfer s vendorId phoneId amount with
  | .error e => (.error e, c)
  | .ok r => (.ok r, { c with ptxList := none })

/-- The cache key of the token endpoint (api/views.py line 232): derived from the
username only. -/
def jwtCacheKey (username : String) : String := "jwt_token_" ++ username

/-- The timeout passed to cache_set at api/views.py line 239. -/
def jwtCacheTimeout : Nat := 60

/-- A cached token-endpoint response together with the timeout it was stored
with. -/
structure TokenCacheEntry where
  value : String
  timeout : Nat
deriving DecidableEq

/-- CachedTokenObtainPairView.post (api/views.py lines 230-240): on a cache hit for
the username-derived key the cached response is returned and the credential check
(auth) is never consulted; on a miss, a successful authentication response is
cached for jwtCacheTimeout seconds. -/
def tokenPost (c : List (String × TokenCacheEntry))
    (auth : String → String → Option String) (username password : String) :
    Option String × List (String × TokenCacheEntry) :=
  match lookupA (jwtCacheKey username) c with
  | some e => (some e.value, c)
  | none =>
      match auth username password with
      | some tok =>
          (some tok, c ++ [(jwtCacheKey username, ⟨tok, jwtCacheTimeout⟩)])
      | none => (none, c)

/-- The invariant of C7 read off the schema: every vendor balance and phone balance
is non-negative, and every stored VendorTransaction amount is positive (enforced at
creation by validate_amount). -/
def goodState (s : LedgerState) : Prop :=
  (∀ kv ∈ s.vendors, 0 ≤ kv.2.balance) ∧
  (∀ kv ∈ s.phones, 0 ≤ kv.2.balance) ∧
  (∀ kv ∈ s.vtxs, 0 < kv.2.amount)

instance (s : LedgerState) : Decidable (goodState s) := by
  unfold goodState; infer_instance

/-- Sum of the balances of the phone numbers owned by vendor vid. -/
def phonesBalanceSum (s : LedgerState) (vid : Nat) : Int :=
  ((s.phones.filter (fun kv => kv.2.vendorId == vid)).map (fun kv => kv.2.balance)).sum

/-- Total assets reachable from vendor vid: its own balance plus the balances of
its phone numbers. -/
def vendorAssets (s : LedgerState) (vid : Nat) : Int :=
  (match lookupA vid s.vendors with
   | some v => v.balance
   | none => 0) + phonesBalanceSum s vid

theorem lookupA_append_left {κ α : Type} [DecidableEq κ] {k : κ} {l l' : List (κ × α)}
    {v : α} (h : lookupA k l = some v) : lookupA k (l ++ l') = some v := by
  induction l with
  | nil => simp [lookupA] at h
  | cons hd tl ih =>
      obtain ⟨k', w⟩ := hd
      by_cases hk : k' = k
      · have hwv : w = v := by simpa [lookupA, hk] using h
        simp [lookupA, hk, hwv]
      · have h' : lookupA k tl = some v := by simpa [lookupA, hk] using h
        simpa [lookupA, hk] using ih h'

theorem lookupA_updateA_self {κ α : Type} [DecidableEq κ] {k : κ} {l : List (κ × α)}
    {v : α} (f : α → α) (h : lookupA k l = some v) :
    lookupA k (updateA k f l) = some (f v) := by
  induction l with
  | nil => simp [lookupA] at h
  | cons hd tl ih =>
      obtain ⟨k', w⟩ := hd
      by_cases hk : k' = k
      · have hwv : w = v := by simpa [lookupA, hk] using h
        simp [lookupA, updateA, hk, hwv]
      · have h' : lookupA k tl = some v := by simpa [lookupA, hk] using h
        simpa [lookupA, updateA, hk] using ih h'

theorem lookupA_updateA_ne {κ α : Type} [DecidableEq κ] {k k2 : κ} {l : List (κ × α)}
    (f : α → α) (hk : k ≠ k2) : lookupA k (updateA k2 f l) = lookupA k l := by
  induction l with
  | nil => simp [updateA]
  | cons hd tl ih =>
      obtain ⟨k', w⟩ := hd
      by_cases h2 : k' = k2
      · subst h2
        have hk' : ¬ k' = k := fun h => hk (h ▸ rfl)
        simp [lookupA, updateA, hk']
      · by_cases h1 : k' = k
        · subst h1
          simp [lookupA, updateA, h2, hk]
        · simp [lookupA, updateA, h1, h2, ih]

theorem lookupA_mem {κ α : Type} [DecidableEq κ] {k : κ} {l : List (κ × α)} {v : α}
    (h : lookupA k l = some v) : (k, v) ∈ l := by
  induction l with
  | nil => simp [lookupA] at h
  | cons hd tl ih =>
      obtain ⟨k', w⟩ := hd
      by_cases hk : k' = k
      · subst hk
        have hwv : w = v := by simpa [lookupA] using h
        simp [hwv]
      · have h' : lookupA k tl = some v := by simpa [lookupA, hk] using h
        exact List.mem_cons_of_mem _ (ih h')

theorem mem_updateA {κ α : Type} [DecidableEq κ] {k : κ} {l : List (κ × α)}
    {kv : κ × α} (f : α → α) (h : kv ∈ updateA k f l) :
    kv ∈ l ∨ ∃ w, lookupA k l = some w ∧ kv = (k, f w) := by
  induction l with
  | nil => simp [updateA] at h
  | cons hd tl ih =>
      obtain ⟨k', w⟩ := hd
      by_cases hk : k' = k
      · subst hk
        rw [updateA, if_pos rfl] at h
        rcases List.mem_cons.mp h with h1 | h1
        · exact .inr ⟨w, by simp [lookupA], h1⟩
        · exact .inl (List.mem_cons_of_mem _ h1)
      · rw [updateA, if_neg hk] at h
        rcases List.mem_cons.mp h with h1 | h1
        · exact .inl (by simp [h1])
        · rcases ih h1 with h2 | ⟨w', hw', hkv⟩
          · exact .inl (List.mem_cons_of_mem _ h2)
          · exact .inr ⟨w', by simpa [lookupA, hk] using hw', hkv⟩

theorem lookupA_filter_self {α : Type} (k : Nat) (l : List (Nat × α)) :
    lookupA k (l.filter (fun kv => kv.1 != k)) = none := by
  induction l with
  | nil => simp [lookupA]
  | cons hd tl ih =>
      obtain ⟨k', w⟩ := hd
      by_cases hk : k' = k
      · simpa [List.filter_cons, hk] using ih
      · simpa [List.filter_cons, hk, lookupA] using ih

theorem createDeposit_ok_shape {s s' : LedgerState} {vid txId : Nat} {a : Int}
    (h : createDeposit s vid a = .ok (s', txId)) :
    0 < a ∧ (∃ v, lookupA vid s.vendors = some v) ∧ txId = s.nextVtxId ∧
      s' = { s with
              vtxs := s.vtxs ++
                [(s.nextVtxId,
                  { vendorId := vid, amount := a, state := .PENDING, reject_reason := "" })],
              nextVtxId := s.nextVtxId + 1 } := by
  by_cases hle : a ≤ 0
  · simp [createDeposit, hle] at h
  rcases hv : lookupA vid s.vendors with _ | v
  · simp [createDeposit, hle, hv] at h
  rw [createDeposit, if_neg hle, hv] at h
  simp only [Except.ok.injEq, Prod.mk.injEq] at h
  obtain ⟨h1, h2⟩ := h
  exact ⟨by omega, ⟨v, rfl⟩, h2.symm, h1.symm⟩

theorem changeState_ok_shape {s : LedgerState} {t : Nat} {ns : Option TxState}
    {rr : Option String} {r : ChangeStateResult}
    (h : changeState s t ns rr = .ok r) :
    ∃ tx0 v0, lookupA t s.vtxs = some tx0 ∧ tx0.state = .PENDING ∧
      lookupA tx0.vendorId s.vendors = some v0 ∧
      r.tx = { tx0 with state := ns.getD tx0.state, reject_reason := rr.getD "" } ∧
      ((ns.getD tx0.state = .APPROVED ∧
        r.vendor = { v0 with balance := v0.balance + tx0.amount } ∧
        r.ledger = { s with
                      vtxs := updateA t (fun _ => r.tx) s.vtxs,
                      vendors := updateA tx0.vendorId (fun _ => r.vendor) s.vendors }) ∨
       (ns.getD tx0.state ≠ .APPROVED ∧ r.vendor = v0 ∧
        r.ledger = { s with vtxs := updateA t (fun _ => r.tx) s.vtxs })) := by
  rcases htx : lookupA t s.vtxs with _ | tx0
  · simp [changeState, htx] at h
  by_cases hpend : tx0.state = .PENDING
  swap
  · simp [changeState, htx, hpend] at h
  rcases hv : lookupA tx0.vendorId s.vendors with _ | v0
  · simp [changeState, htx, hpend, hv] at h
  rw [changeState, htx] at h
  dsimp only [ne_eq] at h
  rw [if_neg (not_not_intro hpend)] at h
  rw [hv] at h
  dsimp only at h
  by_cases happ : ns.getD tx0.state = .APPROVED
  · rw [if_pos happ] at h
    have hr := Except.ok.inj h
    subst hr
    exact ⟨tx0, v0, rfl, hpend, hv, rfl, .inl ⟨happ, rfl, rfl⟩⟩
  · rw [if_neg happ] at h
    have hr := Except.ok.inj h
    subst hr
    exact ⟨tx0, v0, rfl, hpend, hv, rfl, .inr ⟨happ, rfl, rfl⟩⟩

theorem transfer_ok_shape {s s' : LedgerState} {vid pid : Nat} {a : Int}
    {ptx : PhoneNumberTransaction}
    (h : transfer s vid pid a = .ok (s', ptx)) :
    ∃ p v, lookupA pid s.phones = some p ∧ lookupA vid s.vendors = some v ∧
      p.vendorId = vid ∧ ¬ v.balance < a ∧ 0 < a ∧
      ptx = { vendorId := vid, phoneId := pid, amount := a, state := .APPROVED } ∧
      s' = { s with
              vendors := updateA vid (fun w =>
                { w with balance := w.balance - a,
                         total_sell := w.total_sell + a }) s.vendors,
              phones := updateA pid (fun q =>
                { q with balance := q.balance + a }) s.phones,
              ptxs := s.ptxs ++ [ptx] } := by
  rcases hp : lookupA pid s.phones with _ | p
  · simp [transfer, hp] at h
  rcases hv : lookupA vid s.vendors with _ | v
  · simp [transfer, hp, hv] at h
  by_cases hown : p.vendorId = vid
  swap
  · simp [transfer, hp, hv, hown] at h
  by_cases hbal : v.balance < a
  · simp [transfer, hp, hv, hown, hbal] at h
  by_cases hle : a ≤ 0
  · simp [transfer, hp, hv, hown, hbal, hle] at h
  rw [transfer, hp, hv] at h
  dsimp only [ne_eq] at h
  rw [if_neg (not_not_intro hown), if_neg hbal, if_neg hle] at h
  simp only [Except.ok.injEq, Prod.mk.injEq] at h
  obtain ⟨h1, h2⟩ := h
  subst h2
  exact ⟨p, v, rfl, rfl, hown, hbal, by omega, rfl, h1.symm⟩

theorem changeState_notPending {s : LedgerState} {t : Nat} {tx : VendorTransaction}
    (h : lookupA t s.vtxs = some tx) (ht : tx.state ≠ .PENDING)
    (ns : Option TxState) (rr : Option String) :
    changeState s t ns rr = .error .NotPending := by
  rw [changeState, h]
  dsimp only [ne_eq]
  rw [if_pos ht]

theorem vtx_terminal_stable {s : LedgerState} {txId : Nat} {tx : VendorTransaction}
    (h : lookupA txId s.vtxs = some tx) (ht : tx.state ≠ .PENDING) (op : Op) :
    lookupA txId (stepOp s op).vtxs = some tx := by
  cases op with
  | deposit vid a =>
      rcases hc : createDeposit s vid a with e | si
      · simpa [stepOp, hc] using h
      · obtain ⟨s', i⟩ := si
        obtain ⟨-, -, -, hs⟩ := createDeposit_ok_shape hc
        subst hs
        simpa [stepOp, hc] using lookupA_append_left h
  | change t ns rr =>
      by_cases hteq : t = txId
      · subst hteq
        simpa [stepOp, changeState_notPending h ht ns rr] using h
      · rcases hc : changeState s t ns rr with e | r
        · simpa [stepOp, hc] using h
        · obtain ⟨tx0, v0, -, -, -, -, hcase⟩ := changeState_ok_shape hc
          have hvtxs : r.ledger.vtxs = updateA t (fun _ => r.tx) s.vtxs := by
            rcases hcase with ⟨-, -, hl⟩ | ⟨-, -, hl⟩ <;> rw [hl]
          have hne : txId ≠ t := fun hh => hteq hh.symm
          simp only [stepOp, hc]
          rw [hvtxs, lookupA_updateA_ne _ hne]
          exact h
  | xfer vid pid a =>
      rcases hc : transfer s vid pid a with e | sp
      · simpa [stepOp, hc] using h
      · obtain ⟨s', ptx⟩ := sp
        obtain ⟨p, v, -, -, -, -, -, -, hs⟩ := transfer_ok_shape hc
        subst hs
        simpa [stepOp, hc] using h

theorem countSettles_zero {txId : Nat} {tx : VendorTransaction}
    (ht : tx.state ≠ .PENDING) (ops : List Op) :
    ∀ s : LedgerState, lookupA txId s.vtxs = some tx → countSettles s txId ops = 0 := by
  induction ops with
  | nil => intro s _; rfl
  | cons op rest ih =>
      intro s h
      have hset : settles s txId op = false := by
        cases op with
        | deposit vid a => rfl
        | xfer vid pid a => rfl
        | change t ns rr =>
            by_cases hteq : t = txId
            · subst hteq
              simp [settles, changeState_notPending h ht]
            · simp [settles, hteq]
      simp [countSettles, hset, ih (stepOp s op) (vtx_terminal_stable h ht op)]

theorem countSettles_le_one (txId : Nat) (ops : List Op) :
    ∀ s : LedgerState, countSettles s txId ops ≤ 1 := by
  induction ops with
  | nil => intro s; simp [countSettles]
  | cons op rest ih =>
      intro s
      by_cases hs : settles s txId op = true
      · have hzero : countSettles (stepOp s op) txId rest = 0 := by
          cases op with
          | deposit vid a => simp [settles] at hs
          | xfer vid pid a => simp [settles] at hs
          | change t ns rr =>
              rw [settles] at hs
              obtain ⟨ht1, ht2⟩ := Bool.and_eq_true_iff.mp hs
              have hteq : t = txId := of_decide_eq_true ht1
              subst hteq
              rcases hc : changeState s t ns rr with e | r
              · rw [hc] at ht2; exact absurd ht2 (by simp)
              · rw [hc] at ht2
                have hterm : r.tx.state ≠ .PENDING := of_decide_eq_true ht2
                obtain ⟨tx0, v0, htx0, -, -, -, hcase⟩ := changeState_ok_shape hc
                have hvtxs : r.ledger.vtxs = updateA t (fun _ => r.tx) s.vtxs := by
                  rcases hcase with ⟨-, -, hl⟩ | ⟨-, -, hl⟩ <;> rw [hl]
                have hlook : lookupA t (stepOp s (.change t ns rr)).vtxs = some r.tx := by
                  simp only [stepOp, hc]
                  rw [hvtxs]
                  exact lookupA_updateA_self _ htx0
                exact countSettles_zero hterm rest _ hlook
        simp [countSettles, hs, hzero]
      · have hs' : settles s txId op = false := by
          cases hsv : settles s txId op
          · rfl
          · exact absurd hsv hs
        simp [countSettles, hs']
        exact ih (stepOp s op)

theorem transfer_insufficient {s : LedgerState} {vid pid : Nat} {a : Int}
    {p : PhoneNumber} {v : Vendor}
    (hp : lookupA pid s.phones = some p) (hv : lookupA vid s.vendors = some v)
    (hown : p.vendorId = vid) (hbal : v.balance < a) :
    transfer s vid pid a = .error .InsufficientBalance := by
  rw [transfer, hp, hv]
  dsimp only [ne_eq]
  rw [if_neg (not_not_intro hown), if_pos hbal]

theorem goodState_step {s : LedgerState} (hg : goodState s) (op : Op) :
    goodState (stepOp s op) := by
  obtain ⟨hgv, hgp, hgt⟩ := hg
  cases op with
  | deposit vid a =>
      rcases hc : createDeposit s vid a with e | si
      · simpa [stepOp, hc] using ⟨hgv, hgp, hgt⟩
      · obtain ⟨s', i⟩ := si
        obtain ⟨hpos, -, -, hs⟩ := createDeposit_ok_shape hc
        subst hs
        simp only [stepOp, hc]
        refine ⟨hgv, hgp, ?_⟩
        intro kv hkv
        rcases List.mem_append.mp hkv with hm | hm
        · exact hgt kv hm
        · have : kv = (s.nextVtxId,
              { vendorId := vid, amount := a, state := .PENDING, reject_reason := "" }) := by
            simpa using hm
          rw [this]
          exact hpos
  | change t ns rr =>
      rcases hc : changeState s t ns rr with e | r
      · simpa [stepOp, hc] using ⟨hgv, hgp, hgt⟩
      · obtain ⟨tx0, v0, htx0, -, hv0, htxr, hcase⟩ := changeState_ok_shape hc
        have htx0pos : 0 < tx0.amount := hgt _ (lookupA_mem htx0)
        have hvtxsgood : ∀ kv ∈ updateA t (fun _ => r.tx) s.vtxs, 0 < kv.2.amount := by
          intro kv hkv
          rcases mem_updateA _ hkv with hm | ⟨w, -, hkv2⟩
          · exact hgt kv hm
          · rw [hkv2]
            rw [htxr]
            exact htx0pos
        rcases hcase with ⟨-, hvr, hl⟩ | ⟨-, -, hl⟩
        · simp only [stepOp, hc]
          rw [hl]
          refine ⟨?_, hgp, hvtxsgood⟩
          intro kv hkv
          rcases mem_updateA _ hkv with hm | ⟨w, -, hkv2⟩
          · exact hgv kv hm
          · rw [hkv2, hvr]
            have hv0b : 0 ≤ v0.balance := hgv _ (lookupA_mem hv0)
            simp only
            omega
        · simp only [stepOp, hc]
          rw [hl]
          exact ⟨hgv, hgp, hvtxsgood⟩
  | xfer vid pid a =>
      rcases hc : transfer s vid pid a with e | sp
      · simpa [stepOp, hc] using ⟨hgv, hgp, hgt⟩
      · obtain ⟨s', ptx⟩ := sp
        obtain ⟨p, v, hp, hv, -, hbal, hpos, -, hs⟩ := transfer_ok_shape hc
        subst hs
        simp only [stepOp, hc]
        refine ⟨?_, ?_, hgt⟩
        · intro kv hkv
          rcases mem_updateA _ hkv with hm | ⟨w, hw, hkv2⟩
          · exact hgv kv hm
          · have hwv : w = v := by rw [hw] at hv; exact Option.some.inj hv
            subst hwv
            rw [hkv2]
            simp only
            omega
        · intro kv hkv
          rcases mem_updateA _ hkv with hm | ⟨w, hw, hkv2⟩
          · exact hgp kv hm
          · have hwq : 0 ≤ w.balance := hgp _ (lookupA_mem hw)
            rw [hkv2]
            simp only
            omega

theorem goodState_run {s : LedgerState} (hg : goodState s) (ops : List Op) :
    goodState (runOps s ops) := by
  induction ops generalizing s with
  | nil => exact hg
  | cons op rest ih => exact ih (goodState_step hg op)

theorem phonesSum_credit {vid pid : Nat} {a : Int} {l : List (Nat × PhoneNumber)}
    {p : PhoneNumber} (h : lookupA pid l = some p) (hv : p.vendorId = vid) :
    (((updateA pid (fun q => { q with balance := q.balance + a }) l).filter
        (fun kv => kv.2.vendorId == vid)).map (fun kv => kv.2.balance)).sum
      = ((l.filter (fun kv => kv.2.vendorId == vid)).map
          (fun kv => kv.2.balance)).sum + a := by
  induction l with
  | nil => simp [lookupA] at h
  | cons hd tl ih =>
      obtain ⟨k', q⟩ := hd
      by_cases hk : k' = pid
      · subst hk
        have hq : q = p := by simpa [lookupA] using h
        subst hq
        rw [updateA, if_pos rfl]
        simp only [List.filter_cons, hv, beq_self_eq_true, if_true, List.map_cons,
          List.sum_cons]
        omega
      · rw [updateA, if_neg hk]
        have h' : lookupA pid tl = some p := by simpa [lookupA, hk] using h
        by_cases hq : q.vendorId = vid
        · simp only [List.filter_cons, hq, beq_self_eq_true, if_true, List.map_cons,
            List.sum_cons, ih h']
          omega
        · have hqb : (q.vendorId == vid) = false := by
            simpa using hq
          simp only [List.filter_cons, hqb, if_false, Bool.false_eq_true, ih h']

/-- C1: for every VendorTransaction whose current state is PENDING, changeState with
newState = APPROVED sets the transaction state to APPROVED and adds the amount to
the owning vendor balance, both writes landing in the single committed state of the
atomic unit, and returns the updated transaction together with the refreshed vendor
view (the returned rows agree with the committed store). -/
theorem claim_C1 (s : LedgerState) (txId : Nat) (tx : VendorTransaction) (v : Vendor)
    (rr : Option String)
    (htx : lookupA txId s.vtxs = some tx) (hpend : tx.state = .PENDING)
    (hv : lookupA tx.vendorId s.vendors = some v) :
    ∃ r, changeState s txId (some .APPROVED) rr = .ok r ∧
      r.tx = { tx with state := .APPROVED, reject_reason := rr.getD "" } ∧
      r.vendor = { v with balance := v.balance + tx.amount } ∧
      lookupA txId r.ledger.vtxs = some r.tx ∧
      lookupA tx.vendorId r.ledger.vendors = some r.vendor ∧
      r.ledger.phones = s.phones ∧ r.ledger.ptxs = s.ptxs := by
  rw [changeState, htx]
  dsimp only [ne_eq]
  rw [if_neg (not_not_intro hpend), hv]
  dsimp only
  rw [if_pos (by rfl)]
  refine ⟨_, rfl, rfl, rfl, ?_, ?_, rfl, rfl⟩
  · exact lookupA_updateA_self _ htx
  · exact lookupA_updateA_self _ hv

theorem claim_C1_witness :
    ∃ r, changeState
        { vendors := [(1, { balance := 500, total_sell := 0 })], phones := [],
          vtxs := [(10, { vendorId := 1, amount := 200,
                          state := .PENDING, reject_reason := "" })],
          ptxs := [], nextVtxId := 11 } 10 (some .APPROVED) none = .ok r ∧
      r.tx.state = .APPROVED ∧ r.vendor.balance = 700 := by
  obtain ⟨r, h1, h2, h3, -⟩ := claim_C1
    { vendors := [(1, { balance := 500, total_sell := 0 })], phones := [],
      vtxs := [(10, { vendorId := 1, amount := 200,
                      state := .PENDING, reject_reason := "" })],
      ptxs := [], nextVtxId := 11 } 10
    { vendorId := 1, amount := 200, state := .PENDING, reject_reason := "" }
    { balance := 500, total_sell := 0 } none (by decide) (by decide) (by decide)
  refine ⟨r, h1, by rw [h2], by rw [h3]; decide⟩

/-- C2: for every VendorTransaction whose current state is APPROVED or REJECTED
(not PENDING), every changeState call fails with NotPending and leaves the whole
committed state (transaction and balances) unchanged; consequently, over any
sequence of operations, at most one changeState call on a given transaction id ever
succeeds in moving it to a terminal state. -/
theorem claim_C2 (s : LedgerState) (txId : Nat) (tx : VendorTransaction)
    (htx : lookupA txId s.vtxs = some tx) (hterm : tx.state ≠ .PENDING) :
    (∀ ns rr, changeState s txId ns rr = .error .NotPending ∧
       stepOp s (.change txId ns rr) = s) ∧
    (∀ ops : List Op, ∀ s0 : LedgerState, countSettles s0 txId ops ≤ 1) := by
  refine ⟨fun ns rr => ?_, fun ops s0 => countSettles_le_one txId ops s0⟩
  have he := changeState_notPending htx hterm ns rr
  exact ⟨he, by simp [stepOp, he]⟩

theorem claim_C2_witness :
    changeState
      { vendors := [(1, { balance := 700, total_sell := 0 })], phones := [],
        vtxs := [(10, { vendorId := 1, amount := 200,
                        state := .APPROVED, reject_reason := "" })],
        ptxs := [], nextVtxId := 11 } 10 (some .APPROVED) none
      = .error .NotPending ∧
    countSettles
      { vendors := [(1, { balance := 700, total_sell := 0 })], phones := [],
        vtxs := [(10, { vendorId := 1, amount := 200,
                        state := .APPROVED, reject_reason := "" })],
        ptxs := [], nextVtxId := 11 } 10
      [.change 10 (some .APPROVED) none, .change 10 (some .REJECTED) none] ≤ 1 := by
  obtain ⟨h1, h2⟩ := claim_C2
    { vendors := [(1, { balance := 700, total_sell := 0 })], phones := [],
      vtxs := [(10, { vendorId := 1, amount := 200,
                      state := .APPROVED, reject_reason := "" })],
      ptxs := [], nextVtxId := 11 } 10
    { vendorId := 1, amount := 200, state := .APPROVED, reject_reason := "" }
    (by decide) (by decide)
  exact ⟨(h1 (some .APPROVED) none).1,
         h2 [.change 10 (some .APPROVED) none, .change 10 (some .REJECTED) none] _⟩

/-- C3: createDeposit fails with InvalidAmount exactly when amount ≤ 0, and on
success it appends one new VendorTransaction in state PENDING owned by the vendor
while changing no vendor and no phone balance. -/
theorem claim_C3 (s : LedgerState) (vid : Nat) (a : Int) :
    (createDeposit s vid a = .error .InvalidAmount ↔ a ≤ 0) ∧
    (∀ s' txId, createDeposit s vid a = .ok (s', txId) →
       s'.vtxs = s.vtxs ++
         [(txId, { vendorId := vid, amount := a,
                   state := .PENDING, reject_reason := "" })] ∧
       s'.vendors = s.vendors ∧ s'.phones = s.phones) := by
  constructor
  · constructor
    · intro h
      by_contra hle
      rw [createDeposit, if_neg hle] at h
      rcases hv : lookupA vid s.vendors with _ | v <;> rw [hv] at h <;> simp at h
    · intro h
      rw [createDeposit, if_pos h]
  · intro s' txId h
    obtain ⟨-, -, hid, hs⟩ := createDeposit_ok_shape h
    subst hs
    subst hid
    exact ⟨rfl, rfl, rfl⟩

theorem claim_C3_witness :
    createDeposit
      { vendors := [(1, { balance := 0, total_sell := 0 })], phones := [],
        vtxs := [], ptxs := [], nextVtxId := 0 } 1 0 = .error .InvalidAmount ∧
    ({ vendors := [(1, { balance := 0, total_sell := 0 })], phones := [],
       vtxs := [(0, { vendorId := 1, amount := 200,
                      state := .PENDING, reject_reason := "" })],
       ptxs := [], nextVtxId := 1 } : LedgerState).vendors
      = [(1, { balance := 0, total_sell := 0 })] := by
  refine ⟨(claim_C3 _ 1 0).1.mpr (by decide), ?_⟩
  have h := (claim_C3
    { vendors := [(1, { balance := 0, total_sell := 0 })], phones := [],
      vtxs := [], ptxs := [], nextVtxId := 0 } 1 200).2
    { vendors := [(1, { balance := 0, total_sell := 0 })], phones := [],
      vtxs := [(0, { vendorId := 1, amount := 200,
                     state := .PENDING, reject_reason := "" })],
      ptxs := [], nextVtxId := 1 } 0 (by decide)
  exact h.2.1

/-- C4 counterexample: with vendor 1 holding balance 0 and phone 7 owned by vendor
2, a transfer request by vendor 1 for phone 7 with amount 0 fails validation with
NotOwned, not with InvalidAmount as the claimed check order (amount-positivity
first) requires: amount 0 passes the field stage (min_value 0) untouched and the
zero check runs only after the ownership check. -/
theorem claim_C4_counterexample :
    transferValidate
      { vendors := [(1, { balance := 0, total_sell := 0 }),
                    (2, { balance := 0, total_sell := 0 })],
        phones := [(7, { vendorId := 2, balance := 0 })],
        vtxs := [], ptxs := [], nextVtxId := 0 } 1 7 0
      = some .NotOwned ∧
    LedgerError.NotOwned ≠ LedgerError.InvalidAmount := by
  decide

theorem stepOp_unchanged_of_validate {s : LedgerState} {vid pid : Nat} {a : Int}
    {e : LedgerError} (h : transferValidate s vid pid a = some e) :
    stepOp s (.xfer vid pid a) = s := by
  rcases ht : transfer s vid pid a with e2 | pr
  · simp [stepOp, ht]
  · obtain ⟨s2, ptx⟩ := pr
    obtain ⟨p, v, hp, hv, hown, hbal, hpos, -, -⟩ := transfer_ok_shape ht
    rw [transferValidate, if_neg (by omega : ¬ a < 0), hp, hv] at h
    dsimp only [ne_eq] at h
    rw [if_neg (not_not_intro hown), if_neg hbal,
      if_neg (by omega : ¬ a ≤ 0)] at h
    exact absurd h (by simp)

/-- C4 (amended): the transfer endpoint checks its preconditions during serializer
validation — before the account row locks of perform_create are acquired — in this
order: a negative amount is rejected with InvalidAmount at field validation (the
amount field is built from PositiveIntegerField, so it carries min_value 0) before
any other check; then the phone number's owning vendor must equal the resolved
vendor account (else NotOwned, also when no vendor account resolves), then the
source balance must be at least the amount (else InsufficientBalance), and only
then is amount = 0 rejected with InvalidAmount; a failed precondition produces the
corresponding error and leaves all committed state unchanged. -/
theorem claim_C4 (s : LedgerState) (vid pid : Nat) (a : Int) :
    (a < 0 → transferValidate s vid pid a = some .InvalidAmount) ∧
    (∀ p, ¬ a < 0 → lookupA pid s.phones = some p →
       (lookupA vid s.vendors = none ∨ p.vendorId ≠ vid) →
       transferValidate s vid pid a = some .NotOwned) ∧
    (∀ p v, ¬ a < 0 → lookupA pid s.phones = some p →
       lookupA vid s.vendors = some v → p.vendorId = vid → v.balance < a →
       transferValidate s vid pid a = some .InsufficientBalance) ∧
    (∀ p v, lookupA pid s.phones = some p → lookupA vid s.vendors = some v →
       p.vendorId = vid → ¬ v.balance < a → a = 0 →
       transferValidate s vid pid a = some .InvalidAmount) ∧
    (∀ e, transferValidate s vid pid a = some e →
       stepOp s (.xfer vid pid a) = s) := by
  refine ⟨?_, ?_, ?_, ?_, fun e he => stepOp_unchanged_of_validate he⟩
  · intro hneg
    rw [transferValidate, if_pos hneg]
  · intro p hna hp hcase
    rcases hv : lookupA vid s.vendors with _ | v
    · simp [transferValidate, hna, hp, hv]
    · rcases hcase with hnone | hown
      · rw [hv] at hnone
        exact absurd hnone (by simp)
      · simp [transferValidate, hna, hp, hv, hown]
  · intro p v hna hp hv hown hbal
    rw [transferValidate, if_neg hna, hp, hv]
    dsimp only [ne_eq]
    rw [if_neg (not_not_intro hown), if_pos hbal]
  · intro p v hp hv hown hbal hzero
    subst hzero
    rw [transferValidate, if_neg (by omega : ¬ (0:Int) < 0), hp, hv]
    dsimp only [ne_eq]
    rw [if_neg (not_not_intro hown), if_neg hbal, if_pos (by omega : (0:Int) ≤ 0)]

theorem claim_C4_witness :
    transferValidate
      { vendors := [(1, { balance := 5, total_sell := 0 }),
                    (2, { balance := 0, total_sell := 0 })],
        phones := [(7, { vendorId := 2, balance := 0 }),
                   (8, { vendorId := 1, balance := 0 })],
        vtxs := [], ptxs := [], nextVtxId := 0 } 1 7 (-1)
      = some .InvalidAmount ∧
    transferValidate
      { vendors := [(1, { balance := 5, total_sell := 0 }),
                    (2, { balance := 0, total_sell := 0 })],
        phones := [(7, { vendorId := 2, balance := 0 }),
                   (8, { vendorId := 1, balance := 0 })],
        vtxs := [], ptxs := [], nextVtxId := 0 } 1 7 3 = some .NotOwned ∧
    transferValidate
      { vendors := [(1, { balance := 5, total_sell := 0 }),
                    (2, { balance := 0, total_sell := 0 })],
        phones := [(7, { vendorId := 2, balance := 0 }),
                   (8, { vendorId := 1, balance := 0 })],
        vtxs := [], ptxs := [], nextVtxId := 0 } 1 8 9
      = some .InsufficientBalance ∧
    transferValidate
      { vendors := [(1, { balance := 5, total_sell := 0 }),
                    (2, { balance := 0, total_sell := 0 })],
        phones := [(7, { vendorId := 2, balance := 0 }),
                   (8, { vendorId := 1, balance := 0 })],
        vtxs := [], ptxs := [], nextVtxId := 0 } 1 8 0 = some .InvalidAmount ∧
    stepOp
      { vendors := [(1, { balance := 5, total_sell := 0 }),
                    (2, { balance := 0, total_sell := 0 })],
        phones := [(7, { vendorId := 2, balance := 0 }),
                   (8, { vendorId := 1, balance := 0 })],
        vtxs := [], ptxs := [], nextVtxId := 0 } (.xfer 1 8 0)
      = { vendors := [(1, { balance := 5, total_sell := 0 }),
                      (2, { balance := 0, total_sell := 0 })],
          phones := [(7, { vendorId := 2, balance := 0 }),
                     (8, { vendorId := 1, balance := 0 })],
          vtxs := [], ptxs := [], nextVtxId := 0 } := by
  have hzero := (claim_C4
    { vendors := [(1, { balance := 5, total_sell := 0 }),
                  (2, { balance := 0, total_sell := 0 })],
      phones := [(7, { vendorId := 2, balance := 0 }),
                 (8, { vendorId := 1, balance := 0 })],
      vtxs := [], ptxs := [], nextVtxId := 0 } 1 8 0).2.2.2.1
    { vendorId := 1, balance := 0 } { balance := 5, total_sell := 0 }
    (by decide) (by decide) (by decide) (by decide) rfl
  refine ⟨(claim_C4
      { vendors := [(1, { balance := 5, total_sell := 0 }),
                    (2, { balance := 0, total_sell := 0 })],
        phones := [(7, { vendorId := 2, balance := 0 }),
                   (8, { vendorId := 1, balance := 0 })],
        vtxs := [], ptxs := [], nextVtxId := 0 } 1 7 (-1)).1 (by decide),
    (claim_C4
      { vendors := [(1, { balance := 5, total_sell := 0 }),
                    (2, { balance := 0, total_sell := 0 })],
        phones := [(7, { vendorId := 2, balance := 0 }),
                   (8, { vendorId := 1, balance := 0 })],
        vtxs := [], ptxs := [], nextVtxId := 0 } 1 7 3).2.1
      { vendorId := 2, balance := 0 } (by decide) (by decide) (.inr (by decide)),
    (claim_C4
      { vendors := [(1, { balance := 5, total_sell := 0 }),
                    (2, { balance := 0, total_sell := 0 })],
        phones := [(7, { vendorId := 2, balance := 0 }),
                   (8, { vendorId := 1, balance := 0 })],
        vtxs := [], ptxs := [], nextVtxId := 0 } 1 8 9).2.2.1
      { vendorId := 1, balance := 0 } { balance := 5, total_sell := 0 }
      (by decide) (by decide) (by decide) (by decide) (by decide),
    hzero,
    (claim_C4
      { vendors := [(1, { balance := 5, total_sell := 0 }),
                    (2, { balance := 0, total_sell := 0 })],
        phones := [(7, { vendorId := 2, balance := 0 }),
                   (8, { vendorId := 1, balance := 0 })],
        vtxs := [], ptxs := [], nextVtxId := 0 } 1 8 0).2.2.2.2
      .InvalidAmount hzero⟩

/-- C5: a successful transfer of amount a debits the source vendor balance by a,
credits its total_sell by a, credits the destination phone balance by a, appends
exactly one new APPROVED PhoneNumberTransaction referencing both accounts and the
amount, and leaves the vendor's total assets (its balance plus the balances of its
phone numbers) unchanged. -/
theorem claim_C5 (s s' : LedgerState) (vid pid : Nat) (a : Int)
    (ptx : PhoneNumberTransaction) (v : Vendor) (p : PhoneNumber)
    (h : transfer s vid pid a = .ok (s', ptx))
    (hv : lookupA vid s.vendors = some v) (hp : lookupA pid s.phones = some p) :
    lookupA vid s'.vendors = some { v with balance := v.balance - a,
                                           total_sell := v.total_sell + a } ∧
    lookupA pid s'.phones = some { p with balance := p.balance + a } ∧
    s'.ptxs = s.ptxs ++ [ptx] ∧
    ptx = { vendorId := vid, phoneId := pid, amount := a, state := .APPROVED } ∧
    vendorAssets s' vid = vendorAssets s vid := by
  obtain ⟨p0, v0, hp0, hv0, hown, -, -, hptx, hs⟩ := transfer_ok_shape h
  have hpv : p0 = p := by rw [hp0] at hp; exact Option.some.inj hp
  subst hpv
  have hvv : v0 = v := by rw [hv0] at hv; exact Option.some.inj hv
  subst hvv
  subst hs
  refine ⟨lookupA_updateA_self _ hv0, lookupA_updateA_self _ hp0, rfl, hptx, ?_⟩
  unfold vendorAssets phonesBalanceSum
  dsimp only
  rw [lookupA_updateA_self _ hv0, hv0, phonesSum_credit hp0 hown]
  dsimp only
  ring

theorem claim_C5_witness :
    transfer
      { vendors := [(1, { balance := 100, total_sell := 0 })],
        phones := [(5, { vendorId := 1, balance := 0 })],
        vtxs := [], ptxs := [], nextVtxId := 0 } 1 5 30
      = .ok ({ vendors := [(1, { balance := 70, total_sell := 30 })],
               phones := [(5, { vendorId := 1, balance := 30 })],
               vtxs := [],
               ptxs := [{ vendorId := 1, phoneId := 5, amount := 30,
                          state := .APPROVED }],
               nextVtxId := 0 },
             { vendorId := 1, phoneId := 5, amount := 30, state := .APPROVED }) ∧
    vendorAssets
      { vendors := [(1, { balance := 70, total_sell := 30 })],
        phones := [(5, { vendorId := 1, balance := 30 })],
        vtxs := [],
        ptxs := [{ vendorId := 1, phoneId := 5, amount := 30, state := .APPROVED }],
        nextVtxId := 0 } 1
      = vendorAssets
          { vendors := [(1, { balance := 100, total_sell := 0 })],
            phones := [(5, { vendorId := 1, balance := 0 })],
            vtxs := [], ptxs := [], nextVtxId := 0 } 1 := by
  have h := claim_C5
    { vendors := [(1, { balance := 100, total_sell := 0 })],
      phones := [(5, { vendorId := 1, balance := 0 })],
      vtxs := [], ptxs := [], nextVtxId := 0 }
    { vendors := [(1, { balance := 70, total_sell := 30 })],
      phones := [(5, { vendorId := 1, balance := 30 })],
      vtxs := [],
      ptxs := [{ vendorId := 1, phoneId := 5, amount := 30, state := .APPROVED }],
      nextVtxId := 0 } 1 5 30
    { vendorId := 1, phoneId := 5, amount := 30, state := .APPROVED }
    { balance := 100, total_sell := 0 } { vendorId := 1, balance := 0 }
    (by decide) (by decide) (by decide)
  exact ⟨by decide, h.2.2.2.2⟩

/-- C7: every operation sequence run from a committed state whose balances are
non-negative (and whose stored deposit amounts are positive) commits only states
with non-negative balances; and a transfer that would drive the source balance
negative is rejected with InsufficientBalance and leaves the committed state
unchanged. -/
theorem claim_C7 :
    (∀ (s : LedgerState) (ops : List Op), goodState s → goodState (runOps s ops)) ∧
    (∀ (s : LedgerState) (vid pid : Nat) (a : Int) (p : PhoneNumber) (v : Vendor),
       lookupA pid s.phones = some p → lookupA vid s.vendors = some v →
       p.vendorId = vid → v.balance < a →
       transfer s vid pid a = .error .InsufficientBalance ∧
       stepOp s (.xfer vid pid a) = s) := by
  refine ⟨fun s ops hg => goodState_run hg ops, ?_⟩
  intro s vid pid a p v hp hv hown hbal
  have he := transfer_insufficient hp hv hown hbal
  exact ⟨he, by simp [stepOp, he]⟩

theorem claim_C7_witness :
    goodState
      (runOps
        { vendors := [(1, { balance := 0, total_sell := 0 })],
          phones := [(5, { vendorId := 1, balance := 0 })],
          vtxs := [], ptxs := [], nextVtxId := 0 }
        [.deposit 1 1000, .change 0 (some .APPROVED) none, .xfer 1 5 400,
         .xfer 1 5 700, .deposit 1 (-3)]) ∧
    transfer
      { vendors := [(1, { balance := 600, total_sell := 400 })],
        phones := [(5, { vendorId := 1, balance := 400 })],
        vtxs := [], ptxs := [], nextVtxId := 0 } 1 5 700
      = .error .InsufficientBalance := by
  refine ⟨claim_C7.1 _ _ (by decide), (claim_C7.2
    { vendors := [(1, { balance := 600, total_sell := 400 })],
      phones := [(5, { vendorId := 1, balance := 400 })],
      vtxs := [], ptxs := [], nextVtxId := 0 } 1 5 700
    { vendorId := 1, balance := 400 } { balance := 600, total_sell := 400 }
    (by decide) (by decide) (by decide) (by decide)).1⟩

/-- C6: at the failing input — a valid transfer of 30 from vendor 1 (balance 100)
to its phone 5 during which the phone-credit step (step 1) raises a non-database
exception — perform_create catches the exception in its generic handler and returns
a 409 response from inside the atomic block, so the block exits normally and
commits a half-applied transfer: the vendor debit (balance 70, total_sell 30) is
committed while the phone credit and the ledger row are not, and the committed
state differs from the pre-transfer state instead of being rolled back to it. -/
theorem claim_C6_code_bug :
    transferF
      { vendors := [(1, { balance := 100, total_sell := 0 })],
        phones := [(5, { vendorId := 1, balance := 0 })],
        vtxs := [], ptxs := [], nextVtxId := 0 } 1 5 30 (some (1, .nonDbError))
      = (.conflict,
         { vendors := [(1, { balance := 70, total_sell := 30 })],
           phones := [(5, { vendorId := 1, balance := 0 })],
           vtxs := [], ptxs := [], nextVtxId := 0 }) ∧
    ({ vendors := [(1, { balance := 70, total_sell := 30 })],
       phones := [(5, { vendorId := 1, balance := 0 })],
       vtxs := [], ptxs := [], nextVtxId := 0 } : LedgerState)
      ≠ { vendors := [(1, { balance := 100, total_sell := 0 })],
          phones := [(5, { vendorId := 1, balance := 0 })],
          vtxs := [], ptxs := [], nextVtxId := 0 } := by
  decide

theorem retrieveVendor_miss {c : CacheState} {s : LedgerState} {vid : Nat}
    (h : lookupA vid c.vendorDetail = none) :
    (retrieveVendor c s vid).1 = lookupA vid s.vendors := by
  unfold retrieveVendor
  rw [h]
  rcases hv : lookupA vid s.vendors with _ | v <;> simp [hv]

/-- C8 counterexample: vendor 1 (balance 100) is read through the cached path,
filling the vendor detail cache; a transfer of 30 to its phone 5 then commits, but
the transfer path invalidates only the phone-transaction list cache, so the next
cached read of vendor 1 returns the stale pre-transfer balance 100 while the
committed balance is 70 — a value older than the just-committed state, violating
the claimed coherence for entities causally touched by the mutation. -/
theorem claim_C8_counterexample :
    retrieveVendor
      { vendorDetail := [], vendorList := none, vtxDetail := [],
        vtxList := none, ptxList := none }
      { vendors := [(1, { balance := 100, total_sell := 0 })],
        phones := [(5, { vendorId := 1, balance := 0 })],
        vtxs := [], ptxs := [], nextVtxId := 0 } 1
      = (some { balance := 100, total_sell := 0 },
         { vendorDetail := [(1, { balance := 100, total_sell := 0 })],
           vendorList := none, vtxDetail := [], vtxList := none, ptxList := none }) ∧
    transferView
      { vendorDetail := [(1, { balance := 100, total_sell := 0 })],
        vendorList := none, vtxDetail := [], vtxList := none, ptxList := none }
      { vendors := [(1, { balance := 100, total_sell := 0 })],
        phones := [(5, { vendorId := 1, balance := 0 })],
        vtxs := [], ptxs := [], nextVtxId := 0 } 1 5 30
      = (.ok ({ vendors := [(1, { balance := 70, total_sell := 30 })],
                phones := [(5, { vendorId := 1, balance := 30 })],
                vtxs := [],
                ptxs := [{ vendorId := 1, phoneId := 5, amount := 30,
                           state := .APPROVED }],
                nextVtxId := 0 },
              { vendorId := 1, phoneId := 5, amount := 30, state := .APPROVED }),
         { vendorDetail := [(1, { balance := 100, total_sell := 0 })],
           vendorList := none, vtxDetail := [], vtxList := none, ptxList := none }) ∧
    (retrieveVendor
      { vendorDetail := [(1, { balance := 100, total_sell := 0 })],
        vendorList := none, vtxDetail := [], vtxList := none, ptxList := none }
      { vendors := [(1, { balance := 70, total_sell := 30 })],
        phones := [(5, { vendorId := 1, balance := 30 })],
        vtxs := [],
        ptxs := [{ vendorId := 1, phoneId := 5, amount := 30, state := .APPROVED }],
        nextVtxId := 0 } 1).1
      = some { balance := 100, total_sell := 0 } ∧
    lookupA 1
      ({ vendors := [(1, { balance := 70, total_sell := 30 })],
         phones := [(5, { vendorId := 1, balance := 30 })],
         vtxs := [],
         ptxs := [{ vendorId := 1, phoneId := 5, amount := 30, state := .APPROVED }],
         nextVtxId := 0 } : LedgerState).vendors
      = some { balance := 70, total_sell := 30 } ∧
    ({ balance := 100, total_sell := 0 } : Vendor)
      ≠ { balance := 70, total_sell := 30 } := by
  decide

/-- C8 (amended): the approve/reject path invalidates, after its atomic unit has
committed, the caches of the mutated transaction and of its owning vendor, so a
subsequent cached read of that vendor returns exactly the just-committed row; the
transfer path, however, invalidates only the phone-number-transaction list cache
for the request path, leaving every vendor and phone cache entry untouched (so
cached reads of the accounts mutated by the transfer can serve stale values). -/
theorem claim_C8 (c : CacheState) (s : LedgerState) :
    (∀ txId ns rr r c', changeStateView c s txId ns rr = (.ok r, c') →
       (retrieveVendor c' r.ledger r.tx.vendorId).1
          = lookupA r.tx.vendorId r.ledger.vendors ∧
       lookupA txId c'.vtxDetail = none ∧
       c'.vendorList = none ∧ c'.vtxList = none) ∧
    (∀ vid pid a res c', transferView c s vid pid a = (.ok res, c') →
       c' = { c with ptxList := none }) := by
  constructor
  · intro txId ns rr r c' hcv
    rw [changeStateView] at hcv
    rcases hc : changeState s txId ns rr with e | r0 <;> rw [hc] at hcv
    · exact absurd hcv (by simp)
    · simp only [Prod.mk.injEq, Except.ok.injEq] at hcv
      obtain ⟨hr0, hc'⟩ := hcv
      subst hr0
      subst hc'
      refine ⟨?_, ?_, rfl, rfl⟩
      · apply retrieveVendor_miss
        dsimp [invalidateVtxCaches, invalidateVendorCaches]
        exact lookupA_filter_self _ _
      · dsimp [invalidateVtxCaches, invalidateVendorCaches]
        exact lookupA_filter_self _ _
  · intro vid pid a res c' htv
    rw [transferView] at htv
    rcases ht : transfer s vid pid a with e | r0 <;> rw [ht] at htv
    · exact absurd htv (by simp)
    · simp only [Prod.mk.injEq, Except.ok.injEq] at htv
      exact htv.2.symm

theorem claim_C8_witness :
    (retrieveVendor
      { vendorDetail := [], vendorList := none, vtxDetail := [],
        vtxList := none, ptxList := none }
      { vendors := [(1, { balance := 700, total_sell := 0 })], phones := [],
        vtxs := [(10, { vendorId := 1, amount := 200,
                        state := .APPROVED, reject_reason := "" })],
        ptxs := [], nextVtxId := 11 } 1).1
      = lookupA 1
          ({ vendors := [(1, { balance := 700, total_sell := 0 })], phones := [],
             vtxs := [(10, { vendorId := 1, amount := 200,
                             state := .APPROVED, reject_reason := "" })],
             ptxs := [], nextVtxId := 11 } : LedgerState).vendors ∧
    ({ vendorDetail := [(1, { balance := 100, total_sell := 0 })],
       vendorList := none, vtxDetail := [], vtxList := none, ptxList := none }
       : CacheState)
      = { vendorDetail := [(1, { balance := 100, total_sell := 0 })],
          vendorList := none, vtxDetail := [], vtxList := none, ptxList := none } := by
  constructor
  · have h := (claim_C8
      { vendorDetail := [(1, { balance := 500, total_sell := 0 })],
        vendorList := none,
        vtxDetail := [(10, { vendorId := 1, amount := 200,
                             state := .PENDING, reject_reason := "" })],
        vtxList := none, ptxList := none }
      { vendors := [(1, { balance := 500, total_sell := 0 })], phones := [],
        vtxs := [(10, { vendorId := 1, amount := 200,
                        state := .PENDING, reject_reason := "" })],
        ptxs := [], nextVtxId := 11 }).1 10 (some .APPROVED) none
      { ledger := { vendors := [(1, { balance := 700, total_sell := 0 })],
                    phones := [],
                    vtxs := [(10, { vendorId := 1, amount := 200,
                                    state := .APPROVED, reject_reason := "" })],
                    ptxs := [], nextVtxId := 11 },
        tx := { vendorId := 1, amount := 200,
                state := .APPROVED, reject_reason := "" },
        vendor := { balance := 700, total_sell := 0 } }
      { vendorDetail := [], vendorList := none, vtxDetail := [],
        vtxList := none, ptxList := none } (by decide)
    exact h.1
  · have h := (claim_C8
      { vendorDetail := [(1, { balance := 100, total_sell := 0 })],
        vendorList := none, vtxDetail := [], vtxList := none, ptxList := none }
      { vendors := [(1, { balance := 100, total_sell := 0 })],
        phones := [(5, { vendorId := 1, balance := 0 })],
        vtxs := [], ptxs := [], nextVtxId := 0 }).2 1 5 30
      ({ vendors := [(1, { balance := 70, total_sell := 30 })],
         phones := [(5, { vendorId := 1, balance := 30 })],
         vtxs := [],
         ptxs := [{ vendorId := 1, phoneId := 5, amount := 30,
                    state := .APPROVED }],
         nextVtxId := 0 },
       { vendorId := 1, phoneId := 5, amount := 30, state := .APPROVED })
      { vendorDetail := [(1, { balance := 100, total_sell := 0 })],
        vendorList := none, vtxDetail := [], vtxList := none, ptxList := none }
      (by decide)
    exact h

/-- C9: the token endpoint caches successful authentication responses under a key
derived only from the username, with a 60-second timeout; while a cached entry for
the username exists, every request for that username returns the cached response
without consulting the credential check at all, so two requests with the same
username and different passwords (even against different credential oracles) are
indistinguishable during the cache window. -/
theorem claim_C9 (c : List (String × TokenCacheEntry)) (u : String)
    (e : TokenCacheEntry) (h : lookupA (jwtCacheKey u) c = some e) :
    (∀ auth p, tokenPost c auth u p = (some e.value, c)) ∧
    (∀ auth1 auth2 p1 p2, tokenPost c auth1 u p1 = tokenPost c auth2 u p2) ∧
    jwtCacheTimeout = 60 := by
  have hbase : ∀ (auth : String → String → Option String) (p : String),
      tokenPost c auth u p = (some e.value, c) := by
    intro auth p
    rw [tokenPost, h]
  exact ⟨hbase, fun a1 a2 p1 p2 => (hbase a1 p1).trans (hbase a2 p2).symm, rfl⟩

theorem claim_C9_witness :
    tokenPost [(jwtCacheKey "alice", { value := "tok", timeout := 60 })]
      (fun _ _ => none) "alice" "wrong-password"
      = (some "tok", [(jwtCacheKey "alice", { value := "tok", timeout := 60 })]) ∧
    tokenPost [(jwtCacheKey "alice", { value := "tok", timeout := 60 })]
      (fun _ _ => none) "alice" "password-one"
      = tokenPost [(jwtCacheKey "alice", { value := "tok", timeout := 60 })]
          (fun _ _ => some "fresh") "alice" "password-two" := by
  obtain ⟨h1, h2, -⟩ := claim_C9
    [(jwtCacheKey "alice", { value := "tok", timeout := 60 })] "alice"
    { value := "tok", timeout := 60 } (by simp [lookupA])
  exact ⟨h1 (fun _ _ => none) "wrong-password",
         h2 (fun _ _ => none) (fun _ _ => some "fresh") "password-one" "password-two"⟩

theorem changeState_pending_ok {s : LedgerState} {txId : Nat} {tx : VendorTransaction}
    {v : Vendor} (ns : Option TxState) (rr : Option String)
    (htx : lookupA txId s.vtxs = some tx) (hpend : tx.state = .PENDING)
    (hv : lookupA tx.vendorId s.vendors = some v) :
    ∃ r, changeState s txId ns rr = .ok r := by
  rw [changeState, htx]
  dsimp only [ne_eq]
  rw [if_neg (not_not_intro hpend), hv]
  dsimp only
  by_cases happ : ns.getD tx.state = .APPROVED
  · rw [if_pos happ]
    exact ⟨_, rfl⟩
  · rw [if_neg happ]
    exact ⟨_, rfl⟩

/-- C10: changeState accepts PENDING as the requested new state: on a PENDING
transaction it succeeds, writes state PENDING and the supplied reject_reason,
changes no vendor and no phone balance, and leaves the transaction transitionable —
a further changeState call on the same id also succeeds, so more than one
successful changeState call can occur for one transaction id. -/
theorem claim_C10 (s : LedgerState) (txId : Nat) (tx : VendorTransaction)
    (v : Vendor) (rr : String)
    (htx : lookupA txId s.vtxs = some tx) (hpend : tx.state = .PENDING)
    (hv : lookupA tx.vendorId s.vendors = some v) :
    ∃ r, changeState s txId (some .PENDING) (some rr) = .ok r ∧
      r.tx.state = .PENDING ∧ r.tx.reject_reason = rr ∧
      r.ledger.vendors = s.vendors ∧ r.ledger.phones = s.phones ∧
      ∃ r2, changeState r.ledger txId (some .APPROVED) none = .ok r2 := by
  rw [changeState, htx]
  dsimp only [ne_eq]
  rw [if_neg (not_not_intro hpend), hv]
  dsimp only
  rw [if_neg (by simp : ¬ ((some TxState.PENDING).getD tx.state = TxState.APPROVED))]
  refine ⟨_, rfl, rfl, rfl, rfl, rfl, ?_⟩
  exact changeState_pending_ok (some .APPROVED) none
    (lookupA_updateA_self _ htx) rfl hv

theorem claim_C10_witness :
    ∃ r, changeState
        { vendors := [(1, { balance := 500, total_sell := 0 })], phones := [],
          vtxs := [(10, { vendorId := 1, amount := 200,
                          state := .PENDING, reject_reason := "" })],
          ptxs := [], nextVtxId := 11 } 10 (some .PENDING) (some "hold") = .ok r ∧
      r.tx.state = .PENDING ∧
      ∃ r2, changeState r.ledger 10 (some .APPROVED) none = .ok r2 := by
  obtain ⟨r, h1, h2, -, -, -, h3⟩ := claim_C10
    { vendors := [(1, { balance := 500, total_sell := 0 })], phones := [],
      vtxs := [(10, { vendorId := 1, amount := 200,
                      state := .PENDING, reject_reason := "" })],
      ptxs := [], nextVtxId := 11 } 10
    { vendorId := 1, amount := 200, state := .PENDING, reject_reason := "" }
    { balance := 500, total_sell := 0 } "hold" (by decide) (by decide) (by decide)
  exact ⟨r, h1, h2, h3⟩

end Tabdil
